import Mathlib

/-!
Verification of the secret and certificate resolution cache of
system/jlib/jsecrets.cpp (HPCC-Platform).

The C++ code is shallowly embedded: C strings become `List Char`,
unsigned 32-bit arithmetic is `Nat` taken modulo `2^32` explicitly,
functions that throw become `Except`, out-parameters become returned
values, and the injected external capabilities (the JSON parser, the
filesystem, the HTTP transport, the vault registry contents) become
explicit function-valued parameters.
-/

set_option autoImplicit false

namespace JSecrets

/-- Convenience: the character list of a string literal. -/
def str (s : String) : List Char := s.data

/-! ## Name validation (jsecrets.cpp lines 82-127) -/

/-- The extra characters allowed in the middle of a secret name:
`validSecretNameChrs = ".-"` (line 82). -/
def validSecretNameChrs : List Char := str ".-"

/-- Embedding of `isValidSecretOrKeyNameChr` (lines 83-94): a character is
valid if it is alphanumeric; `.` and `-` are additionally valid away from
the first/last position; `_` is additionally valid away from the
first/last position when validating a key name.  The C source first
rejects the terminating NUL (because `strchr` would otherwise find it). -/
def isValidSecretOrKeyNameChr (c : Char) (firstOrLastChar isKeyName : Bool) : Bool :=
  if c = '\x00' then false
  else if c.isAlphanum then true
  else if firstOrLastChar then false
  else if validSecretNameChrs.contains c then true
  else isKeyName && c = '_'

/-- The loop of `isValidSecretOrKeyName` after the first character: a
character is last exactly when the remainder of the list is empty
(`'\0' == *(name+1)` in the source). -/
def validSecretNameTail (isKeyName : Bool) : List Char → Bool
  | [] => true
  | c :: rest =>
    isValidSecretOrKeyNameChr c rest.isEmpty isKeyName && validSecretNameTail isKeyName rest

/-- Embedding of `isValidSecretOrKeyName` (lines 96-109).  An empty name is
invalid because `*name` is then the terminating NUL. -/
def isValidSecretOrKeyName (name : List Char) (isKeyName : Bool) : Bool :=
  match name with
  | [] => false
  | c :: rest => isValidSecretOrKeyNameChr c true isKeyName && validSecretNameTail isKeyName rest

/-- The exceptions surfaced by the public entry points. -/
inductive SecErr where
  | invalidCategory
  | invalidSecretName
  | invalidKeyName
  | secretNotFound
  | missingKey
  | vaultAuthError
  deriving DecidableEq, Repr

/-- Embedding of `validateCategoryName` (lines 111-115).  Note that the
source passes `true` for the `isKeyName` argument. -/
def validateCategoryName (category : List Char) : Except SecErr Unit :=
  if isValidSecretOrKeyName category true then .ok () else .error .invalidCategory

/-- Embedding of `validateSecretName` (lines 117-121), `isKeyName = false`. -/
def validateSecretName (secret : List Char) : Except SecErr Unit :=
  if isValidSecretOrKeyName secret false then .ok () else .error .invalidSecretName

/-- Embedding of `validateKeyName` (lines 123-127), `isKeyName = true`. -/
def validateKeyName (key : List Char) : Except SecErr Unit :=
  if isValidSecretOrKeyName key true then .ok () else .error .invalidKeyName

/-! ## URL splitting (jsecrets.cpp lines 129-232) -/

/-- `memchr`/`strchr` as a splitter: `splitFirst c l = some (a, b)` when
`l = a ++ c :: b` and `c ∉ a`; `none` when `c` does not occur in `l`. -/
def splitFirst (c : Char) : List Char → Option (List Char × List Char)
  | [] => none
  | x :: xs =>
    if x = c then some ([], xs)
    else
      match splitFirst c xs with
      | none => none
      | some (a, b) => some (x :: a, b)

/-- Embedding of `splitUrlAddress` (lines 129-142): split `host[:port]`
at the first colon. -/
def splitUrlAddress (address : List Char) : List Char × List Char :=
  match splitFirst ':' address with
  | none => (address, [])
  | some (host, port) => (host, port)

/-- Embedding of `splitUrlAuthority` (lines 144-165): returns
`(user, password, host, port)`.  The userinfo part before the first `@`
is split at its first colon; the rest is split as an address. -/
def splitUrlAuthority (authority : List Char) :
    List Char × List Char × List Char × List Char :=
  match splitFirst '@' authority with
  | none =>
    let (host, port) := splitUrlAddress authority
    ([], [], host, port)
  | some (userinfo, rest) =>
    let (host, port) := splitUrlAddress rest
    match splitFirst ':' userinfo with
    | none => (userinfo, [], host, port)
    | some (user, password) => (user, password, host, port)

/-- Case-insensitive prefix match, embedding the `strnicmp(pat, url, n)`
calls of `extractUrlProtocol`; returns the remainder after the pattern. -/
def matchPrefixCI : List Char → List Char → Option (List Char)
  | [], l => some l
  | _ :: _, [] => none
  | p :: ps, x :: xs => if x.toLower = p.toLower then matchPrefixCI ps xs else none

/-- Errors thrown by the URL splitter. -/
inductive UrlErr where
  | badProtocol
  deriving DecidableEq, Repr

/-- Embedding of `extractUrlProtocol` (lines 175-193): `HTTPS://` or
`HTTP://` case-insensitively; the scheme is returned normalized to lower
case, together with the rest of the URL.  Anything else throws. -/
def extractUrlProtocol (url : List Char) : Except UrlErr (List Char × List Char) :=
  match matchPrefixCI (str "https://") url with
  | some rest => .ok (str "https://", rest)
  | none =>
    match matchPrefixCI (str "http://") url with
    | some rest => .ok (str "http://", rest)
    | none => .error .badProtocol

/-- Embedding of the body of `splitUrlSections` after the protocol has been
removed (lines 195-208): the authority is everything before the first `/`;
a trailing path of exactly `"/"` is treated as no path. -/
def splitUrlSections (rest : List Char) : List Char × List Char :=
  match splitFirst '/' rest with
  | none => (rest, [])
  | some (authority, p) => (authority, if p = [] then [] else '/' :: p)

/-- Embedding of `splitUrlIsolateScheme` (lines 226-232): returns
`(user, password, scheme, host, port, path)`. -/
def splitUrlIsolateScheme (url : List Char) :
    Except UrlErr (List Char × List Char × List Char × List Char × List Char × List Char) :=
  match extractUrlProtocol url with
  | .error e => .error e
  | .ok (scheme, rest) =>
    let (authority, path) := splitUrlSections rest
    let (user, password, host, port) := splitUrlAuthority authority
    .ok (user, password, scheme, host, port, path)

/-! ## Hashing and the dynamic URL secret name (lines 235-304) -/

/-- `2^32`, the modulus of C `unsigned` arithmetic. -/
def UINT32_MOD : Nat := 4294967296

/-- Modelled from the spec: `hashc` from jhash.hpp (not under src/) — a
32-bit hash that mixes each octet into the accumulator by xor and then
multiplies by the FNV prime 16777619, operating over the byte sequence. -/
def hashc (bytes : List Char) (initval : Nat) : Nat :=
  bytes.foldl (fun h c => ((h ^^^ c.toNat) * 16777619) % UINT32_MOD) initval

/-- Modelled from the spec: `hashcz` from jhash.hpp (not under src/) —
`hashc` applied to the whole NUL-terminated string. -/
def hashcz (bytes : List Char) (initval : Nat) : Nat :=
  hashc bytes initval

/-- Embedding of `replaceExtraHostAndPortChars` (lines 235-244): replace
every `.` and `:` in the buffer by `-`. -/
def replaceExtraHostAndPortChars (s : List Char) : List Char :=
  s.map (fun c => if c = '.' ∨ c = ':' then '-' else c)

/-- Decimal digit character for `d ≤ 9`. -/
def decDigitChar (d : Nat) : Char := Char.ofNat (48 + d)

/-- Lowercase hexadecimal digit character for `d ≤ 15`. -/
def hexDigitChar (d : Nat) : Char :=
  if d < 10 then Char.ofNat (48 + d) else Char.ofNat (87 + d)

/-- Value of a lowercase hexadecimal digit character. -/
def hexVal (c : Char) : Nat :=
  if 97 ≤ c.toNat then c.toNat - 87 else c.toNat - 48

/-- Decimal rendering of an unsigned value (`StringBuffer::append(unsigned)`). -/
def decRepr (n : Nat) : List Char :=
  if n = 0 then [decDigitChar 0] else ((Nat.digits 10 n).reverse).map decDigitChar

/-- Lowercase hexadecimal rendering of a positive value (`printf "%x"`). -/
def hexRepr (n : Nat) : List Char :=
  ((Nat.digits 16 n).reverse).map hexDigitChar

/-- The hash computed by `generateDynamicUrlSecretName` (lines 274-285):
seeded at 0, mixed with the path when non-empty, then with the username
portion of `user[:password]` — only the part before the first colon, so
the password does not contribute. -/
def urlHash (path userPasswordPair : List Char) : Nat :=
  let h0 : Nat := 0
  let h1 := if path = [] then h0 else hashcz path h0
  if userPasswordPair = [] then h1
  else
    match splitFirst ':' userPasswordPair with
    | some (user, _) => hashc user h1
    | none => hashcz userPasswordPair h1

/-- The part of `generateDynamicUrlSecretName` (lines 249-272) that does
not depend on the user or path: prefix, optional `ssl-`, host with `.`
and `:` replaced by `-`, and the port when it survived default-port
suppression.  The scheme check mirrors `strnicmp("http", scheme, 4)`
followed by inspection of `scheme[4]` (the NUL terminator is `none`);
port 443 is suppressed for `https`, port 80 for `http:`. -/
def dynamicUrlSecretNameBase (scheme : Option (List Char)) (host : List Char)
    (port : Nat) : List Char :=
  let sslPort : List Char × Nat :=
    match scheme with
    | none => ([], port)
    | some sch =>
      match matchPrefixCI (str "http") sch with
      | none => ([], port)
      | some _ =>
        match sch.get? 4 with
        | some c =>
          if c = 's' then (str "ssl-", if port = 443 then 0 else port)
          else if c = ':' then ([], if port = 80 then 0 else port)
          else ([], port)
        | none => ([], port)
  let base := replaceExtraHostAndPortChars (str "http-connect-" ++ sslPort.1 ++ host)
  if sslPort.2 ≠ 0 then base ++ '-' :: decRepr sslPort.2 else base

/-- The suffix appended for the path/username hash (lines 286-287): only
appended when the hash is nonzero, as `-%x`. -/
def hashSuffix (h : Nat) : List Char :=
  if h ≠ 0 then '-' :: hexRepr h else []

/-- Embedding of the six-argument `generateDynamicUrlSecretName`
(lines 247-289): the user/path-independent base followed by the hash
suffix. -/
def generateDynamicUrlSecretName (scheme : Option (List Char))
    (userPasswordPair host : List Char) (port : Nat) (path : List Char) : List Char :=
  dynamicUrlSecretNameBase scheme host port ++ hashSuffix (urlHash path userPasswordPair)

/-- Modelled from the C library `atoi` restricted to the digit strings
that occur as port numbers: the numeric value of the longest digit
prefix. -/
def atoiNat : List Char → Nat → Nat
  | [], acc => acc
  | c :: cs, acc => if c.isDigit then atoiNat cs (acc * 10 + (c.toNat - 48)) else acc

/-- Embedding of the URL-taking overload of `generateDynamicUrlSecretName`
(lines 291-304): split the URL, override the username when an input
username is supplied, default the port number to 0 when the URL has no
port, and delegate to the six-argument version. -/
def generateDynamicUrlSecretNameFromUrl (url inputUsername : List Char) :
    Except UrlErr (List Char) :=
  match splitUrlIsolateScheme url with
  | .error e => .error e
  | .ok (user, _password, scheme, host, port, path) =>
    let username := if inputUsername ≠ [] then inputUsername else user
    let portNum := if port ≠ [] then atoiNat port 0 else 0
    .ok (generateDynamicUrlSecretName (some scheme) username host portNum path)

/-! ## Property trees (the contents of a secret)

A secret's contents are an `IPropertyTree`: a node with an optional
binary value and named children.  Only the operations the secrets code
uses are modelled: child lookup by a `/`-separated path and value lookup
by key. -/

mutual
/-- A property-tree node: optional value plus named children. -/
inductive PTree where
  | node (value : Option (List Char)) (children : PTreeChildren)

/-- The ordered children of a property-tree node. -/
inductive PTreeChildren where
  | nil
  | cons (name : List Char) (child : PTree) (rest : PTreeChildren)
end

/-- First child with the given name, as jptree lookup does. -/
def PTreeChildren.find (n : List Char) : PTreeChildren → Option PTree
  | .nil => none
  | .cons nm c rest => if nm = n then some c else rest.find n

/-- The children of a node. -/
def PTree.children : PTree → PTreeChildren
  | .node _ ch => ch

/-- The value of a node. -/
def PTree.value : PTree → Option (List Char)
  | .node v _ => v

/-- Split a jptree path on `/` into its segments. -/
def splitSegsAux (cur : List Char) : List Char → List (List Char)
  | [] => [cur.reverse]
  | c :: rest =>
    if c = '/' then cur.reverse :: splitSegsAux [] rest
    else splitSegsAux (c :: cur) rest

/-- Segments of a jptree path. -/
def splitSegs (path : List Char) : List (List Char) := splitSegsAux [] path

/-- Walk a list of path segments from a node. -/
def PTree.getSegs : PTree → List (List Char) → Option PTree
  | t, [] => some t
  | t, s :: rest =>
    match t.children.find s with
    | none => none
    | some c => c.getSegs rest

/-- `IPropertyTree::getPropTree(path)`: follow a `/`-separated path. -/
def PTree.getPropTree (t : PTree) (path : List Char) : Option PTree :=
  t.getSegs (splitSegs path)

/-- `IPropertyTree::getProp(key)` as used on secret contents: the value
stored at the named child, `none` when the key is absent. -/
def PTree.getProp (t : PTree) (key : List Char) : Option (List Char) :=
  match t.children.find key with
  | none => none
  | some c => c.value

/-! ## Vault kinds and payload decoding (lines 55-64 and 1025-1044) -/

/-- Embedding of `enum class CVaultKind` (line 55). -/
inductive CVaultKind where
  | kv_v1
  | kv_v2
  deriving DecidableEq, Repr

/-- Embedding of `getSecretType` (lines 57-64): an empty (or null) kind
string and every string other than `"kv_v1"` map to `kv_v2`. -/
def getSecretType (s : Option (List Char)) : CVaultKind :=
  match s with
  | none => .kv_v2
  | some [] => .kv_v2
  | some l => if l = str "kv_v1" then .kv_v1 else .kv_v2

/-- Embedding of `createPTreeFromVaultSecret` (lines 1025-1044).  The JSON
parser `createPTreeFromJSONString` is an external collaborator and is
passed in as `parseJson` (`none` models an unparseable body).  A `kv_v1`
payload is unwrapped from the `data` subtree, a `kv_v2` payload (the
`default` case shares the `kv_v2` branch) from `data/data`. -/
def createPTreeFromVaultSecret (parseJson : List Char → Option PTree)
    (content : List Char) (kind : CVaultKind) : Option PTree :=
  if content = [] then none
  else
    match parseJson content with
    | none => none
    | some tree =>
      match kind with
      | .kv_v1 => tree.getPropTree (str "data")
      | .kv_v2 => tree.getPropTree (str "data/data")

/-! ## The secret cache entry (lines 371-449) -/

/-- C unsigned 32-bit subtraction: `(a - b) mod 2^32` for arbitrary
naturals standing for `unsigned` values. -/
def usub (a b : Nat) : Nat :=
  (a + (UINT32_MOD - b % UINT32_MOD)) % UINT32_MOD

mutual
/-- Modelled from the spec: `getPropertyTreeHash` (jptree, not under
src/) — a deterministic pure function of the contents, seeded with
0x811C9DC5.  Only determinism matters to the claims. -/
def ptreeHash : PTree → Nat
  | .node v ch =>
    hashc (match v with | none => [] | some s => s) (ptreeChildrenHash ch)

/-- Hash of a children list, part of the `ptreeHash` model. -/
def ptreeChildrenHash : PTreeChildren → Nat
  | .nil => 2166136261
  | .cons n c rest => hashc n ((ptreeHash c + ptreeChildrenHash rest) % UINT32_MOD)
end

/-- Embedding of `SecretCacheEntry` (lines 373-449).  Timestamps are
`cache_timestamp = unsigned` values. -/
structure SecretCacheEntry where
  contents : Option PTree
  contentTimestamp : Nat
  accessedTimestamp : Nat
  checkedTimestamp : Nat
  contentHash : Nat

/-- Embedding of the `SecretCacheEntry` constructor (lines 380-383):
content and access timestamps are `now`, the checked timestamp is
`now - 2 * secretTimeoutMs` in unsigned arithmetic, so that
`needsRefresh` is intended to hold immediately. -/
def mkSecretCacheEntry (now ttl : Nat) : SecretCacheEntry :=
  { contents := none
    contentTimestamp := now
    accessedTimestamp := now
    checkedTimestamp := usub now (2 * ttl)
    contentHash := 0 }

/-- Embedding of `SecretCacheEntry::needsRefresh(now)` (lines 406-410):
the unsigned elapsed time since the last check exceeds the TTL. -/
def SecretCacheEntry.needsRefresh (e : SecretCacheEntry) (ttl now : Nat) : Bool :=
  decide (ttl < usub now e.checkedTimestamp)

/-- Embedding of `SecretCacheEntry::noteFailedUpdate(now)` (lines
417-423): only the checked timestamp moves, the last good value stays. -/
def SecretCacheEntry.noteFailedUpdate (e : SecretCacheEntry) (now : Nat) : SecretCacheEntry :=
  { e with checkedTimestamp := now }

/-- Embedding of `SecretCacheEntry::updateContents` together with
`updateHash` (lines 427-442): install the new contents, recompute the
hash, and set all three timestamps to `now`. -/
def SecretCacheEntry.updateContents (e : SecretCacheEntry) (t : PTree) (now : Nat) :
    SecretCacheEntry :=
  { e with
    contents := some t
    contentHash := ptreeHash t
    contentTimestamp := now
    accessedTimestamp := now
    checkedTimestamp := now }

/-! ## The secret cache (lines 451-493) -/

/-- The cache map, `std::unordered_map<std::string, SecretCacheEntry>`,
as an association list from composite key to entry. -/
def SecretCacheMap := List (List Char × SecretCacheEntry)

/-- Lookup of a cache key. -/
def cacheLookup (cache : SecretCacheMap) (k : List Char) : Option SecretCacheEntry :=
  match cache with
  | [] => none
  | (k0, e) :: rest => if k0 = k then some e else cacheLookup rest k

/-- Write an entry back under its key (inserting when absent), modelling
in-place mutation of the uniquely-owned map slot. -/
def cacheSet (cache : SecretCacheMap) (k : List Char) (e : SecretCacheEntry) :
    SecretCacheMap :=
  match cache with
  | [] => [(k, e)]
  | (k0, e0) :: rest =>
    if k0 = k then (k0, e) :: rest else (k0, e0) :: cacheSet rest k e

/-- Embedding of `SecretCache::resolveSecret` (lines 465-482): look the
key up; on a hit bump the accessed timestamp, otherwise insert a fresh
entry that is marked as out of date.  Returns the (stable) entry and the
updated map. -/
def SecretCache.resolveSecret (cache : SecretCacheMap) (ttl : Nat)
    (secretKey : List Char) (now : Nat) : SecretCacheEntry × SecretCacheMap :=
  match cacheLookup cache secretKey with
  | some e =>
    let e1 := { e with accessedTimestamp := now }
    (e1, cacheSet cache secretKey e1)
  | none =>
    let e := mkSecretCacheEntry now ttl
    (e, cacheSet cache secretKey e)

/-! ## Resolution (lines 996-1102)

The local filesystem source, the vault registry and the JSON parser are
external capabilities from the point of view of `getSecretEntry`; they
are collected in a `ResolveEnv`.  Which backend is consulted, and in
which order, is recorded as a `Consult` trace. -/

/-- One consultation of a secret source. -/
inductive Consult where
  | localFs (category name : List Char)
  | registryByVault (category vaultId name : List Char)
  | registryByCategory (category name : List Char)
  deriving DecidableEq, Repr

/-- The injected environment: `resolveLocalSecret` (lines 996-1023), the
vault manager's `requestSecretFromVault` / `requestSecretByCategory`
(lines 949-967, returning the declared kind and the raw body on
success), and the JSON parser. -/
structure ResolveEnv where
  localSecret : List Char → List Char → Option PTree
  registryByVault : List Char → List Char → List Char → Option (List Char) →
    Option (CVaultKind × List Char)
  registryByCategory : List Char → List Char → Option (List Char) →
    Option (CVaultKind × List Char)
  parseJson : List Char → Option PTree

/-- `strieq`: case-insensitive string equality. -/
def strieq (a b : List Char) : Bool :=
  a.map Char.toLower == b.map Char.toLower

/-- Embedding of `resolveVaultSecret` (lines 1046-1062): an empty (or
null) vault id uses `requestSecretByCategory`, otherwise
`requestSecretFromVault`; the body is decoded by
`createPTreeFromVaultSecret` with the returned kind. -/
def resolveVaultSecret (env : ResolveEnv) (category name : List Char)
    (vaultId : Option (List Char)) (version : Option (List Char)) :
    Option PTree × List Consult :=
  match vaultId with
  | some (c0 :: cs) =>
    match env.registryByVault category (c0 :: cs) name version with
    | none => (none, [.registryByVault category (c0 :: cs) name])
    | some (kind, json) =>
      (createPTreeFromVaultSecret env.parseJson json kind,
       [.registryByVault category (c0 :: cs) name])
  | _ =>
    match env.registryByCategory category name version with
    | none => (none, [.registryByCategory category name])
    | some (kind, json) =>
      (createPTreeFromVaultSecret env.parseJson json kind,
       [.registryByCategory category name])

/-- Embedding of the refresh branch of `getSecretEntry` (lines
1080-1093): a non-empty vault id equal to `"k8s"` (case-insensitively,
`strieq`) uses the local source only; any other non-empty vault id goes
to that vault via the registry; an empty or null vault id tries the
local source first and falls back to the registry's by-category fan-out
only when the local source is absent. -/
def resolveSecretForRefresh (env : ResolveEnv) (category name : List Char)
    (optVaultId optVersion : Option (List Char)) : Option PTree × List Consult :=
  match optVaultId with
  | some (c0 :: cs) =>
    if strieq (c0 :: cs) (str "k8s") then
      (env.localSecret category name, [.localFs category name])
    else
      resolveVaultSecret env category name (some (c0 :: cs)) optVersion
  | _ =>
    match env.localSecret category name with
    | some t => (some t, [.localFs category name])
    | none =>
      let (r, tr) := resolveVaultSecret env category name none optVersion
      (r, .localFs category name :: tr)

/-- The composite cache key built by `getSecretEntry` (lines 1069-1074):
`category "/" name`, then `"@" vaultId` whenever the vault-id pointer is
non-null (even when it points at an empty string), then `"#" version`
whenever the version pointer is non-null. -/
def buildSecretKey (category name : List Char)
    (optVaultId optVersion : Option (List Char)) : List Char :=
  category ++ str "/" ++ name
    ++ (match optVaultId with | none => [] | some v => '@' :: v)
    ++ (match optVersion with | none => [] | some v => '#' :: v)

/-- The process-wide state seen by `getSecretEntry`: the injected
environment, the global cache, the clock (`msTick()`), the TTL
(`secretTimeoutMs`), and the trace of source consultations made so far. -/
structure SecretsState where
  env : ResolveEnv
  cache : SecretCacheMap
  now : Nat
  ttl : Nat
  consulted : List Consult

/-- Embedding of `getSecretEntry` (lines 1065-1102): build the key,
resolve the cache entry, return it unchanged when no refresh is due;
otherwise resolve from the sources and either install the new contents
or note the failed update, keeping the old value. -/
def getSecretEntry (st : SecretsState) (category name : List Char)
    (optVaultId optVersion : Option (List Char)) : SecretCacheEntry × SecretsState :=
  let key := buildSecretKey category name optVaultId optVersion
  let (entry, cache1) := SecretCache.resolveSecret st.cache st.ttl key st.now
  if ¬ entry.needsRefresh st.ttl st.now then
    (entry, { st with cache := cache1 })
  else
    let (resolved, trace) := resolveSecretForRefresh st.env category name optVaultId optVersion
    match resolved with
    | some t =>
      let e1 := entry.updateContents t st.now
      (e1, { st with cache := cacheSet cache1 key e1, consulted := st.consulted ++ trace })
    | none =>
      let e1 := entry.noteFailedUpdate st.now
      (e1, { st with cache := cacheSet cache1 key e1, consulted := st.consulted ++ trace })

/-- Embedding of `getSecretTree` (lines 1104-1110): the entry's current
contents (`SecretCache::getContents`, null when never loaded). -/
def getSecretTree (st : SecretsState) (category name : List Char)
    (optVaultId optVersion : Option (List Char)) : Option PTree × SecretsState :=
  let (entry, st1) := getSecretEntry st category name optVaultId optVersion
  (entry.contents, st1)

/-- Embedding of the public `getSecret` (lines 1115-1121): validate the
category and secret names, then resolve. -/
def getSecret (st : SecretsState) (category name : List Char)
    (optVaultId optVersion : Option (List Char)) :
    Except SecErr (Option PTree × SecretsState) :=
  match validateCategoryName category with
  | .error e => .error e
  | .ok _ =>
    match validateSecretName name with
    | .error e => .error e
    | .ok _ => .ok (getSecretTree st category name optVaultId optVersion)

/-- Embedding of `getSecretKeyValue` (lines 1132-1138): validate the key
name, then read the key from the secret; returns the `found` flag and
the value appended to the result buffer (`none` = buffer untouched). -/
def getSecretKeyValue (secret : Option PTree) (key : List Char) :
    Except SecErr (Bool × Option (List Char)) :=
  match validateKeyName key with
  | .error e => .error e
  | .ok _ =>
    match secret with
    | none => .ok (false, none)
    | some t =>
      match t.getProp key with
      | none => .ok (false, none)
      | some v => .ok (true, some v)

/-- Embedding of `getSecretValue` (lines 1140-1149): resolve the secret
(with null vault id and version), throw when `required` and the secret
is absent, read the key, throw when `required` and the key is absent;
otherwise return `true` and the (possibly untouched) result buffer. -/
def getSecretValue (st : SecretsState) (category name key : List Char)
    (required : Bool) : Except SecErr (Bool × Option (List Char) × SecretsState) := do
  match getSecret st category name none none with
  | .error e => .error e
  | .ok (secret, st1) =>
    if required && secret.isNone then .error .secretNotFound
    else
      match getSecretKeyValue secret key with
      | .error e => .error e
      | .ok (found, result) =>
        if required && !found then .error .missingKey
        else .ok (true, result, st1)

/-! ## The vault client fetch path (lines 497-877)

The HTTP transport and clock are external, so a vault run is modelled
against an oracle: a list of successive GET outcomes (`none` = transport
error) and a fixed login outcome (`none` = login failure, which the C++
code surfaces as a thrown auth error).  Observable actions are recorded
as `VaultEvent`s. -/

/-- Embedding of `enum class VaultAuthType` (line 351). -/
inductive VaultAuthType where
  | unknown
  | k8s
  | appRole
  | token
  | clientcert
  deriving DecidableEq, Repr

/-- One HTTP response: status and body. -/
structure HttpResponse where
  status : Nat
  body : List Char
  deriving DecidableEq, Repr

/-- Observable actions of the vault client. -/
inductive VaultEvent where
  | loginAttempt (permissionDenied : Bool)
  | httpGet (permissionDenied : Bool)
  | logPermissionDenied
  | logNotFound
  | logOtherError
  | logCommError
  deriving DecidableEq, Repr

/-- Static configuration of a `CVault` relevant to the fetch path. -/
structure VaultCfg where
  authType : VaultAuthType
  retries : Nat

/-- Mutable/oracle state of a `CVault` run. -/
structure VaultSt where
  clientToken : List Char
  tokenExpired : Bool
  responses : List (Option HttpResponse)
  loginOutcome : Option (List Char)
  events : List VaultEvent

/-- The error thrown by `vaultAuthError`. -/
inductive VaultErr where
  | authError
  deriving DecidableEq, Repr

/-- The shared shape of `kubernetesLogin` / `appRoleLogin` /
`clientCertLogin` (lines 706-798): when not forced by a permission
denial, an unexpired existing token short-circuits; otherwise a login is
attempted, either installing the fresh token or throwing an auth
error. -/
def vaultLogin (permissionDenied : Bool) (st : VaultSt) : Except VaultErr VaultSt :=
  if ¬ permissionDenied ∧ st.clientToken ≠ [] ∧ ¬ st.tokenExpired then .ok st
  else
    let st1 := { st with events := st.events ++ [VaultEvent.loginAttempt permissionDenied] }
    match st1.loginOutcome with
    | some tok => .ok { st1 with clientToken := tok, tokenExpired := false }
    | none => .error .authError

/-- Embedding of `CVault::checkAuthentication` (lines 799-811): appRole,
k8s and client-cert vaults (re)login; a static-token vault throws on a
permission denial; finally an empty token is an auth error. -/
def checkAuthentication (cfg : VaultCfg) (permissionDenied : Bool) (st : VaultSt) :
    Except VaultErr VaultSt :=
  let attempt : Except VaultErr VaultSt :=
    match cfg.authType with
    | .appRole => vaultLogin permissionDenied st
    | .k8s => vaultLogin permissionDenied st
    | .clientcert => vaultLogin permissionDenied st
    | .token => if permissionDenied then .error .authError else .ok st
    | .unknown => .ok st
  match attempt with
  | .error e => .error e
  | .ok st1 => if st1.clientToken = [] then .error .authError else .ok st1

/-- One `cli.Get`: consume the next oracle response and record the
attempt. -/
def vaultGet (permissionDenied : Bool) (st : VaultSt) : Option HttpResponse × VaultSt :=
  match st.responses with
  | [] => (none, { st with events := st.events ++ [VaultEvent.httpGet permissionDenied] })
  | r :: rest =>
    (r, { st with responses := rest, events := st.events ++ [VaultEvent.httpGet permissionDenied] })

/-- The communication-failure retry loop of `requestSecretAtLocation`
(lines 829-835): while the transport fails and retries remain, sleep and
issue the GET again. -/
def vaultGetRetry (permissionDenied : Bool) :
    Nat → Option HttpResponse → VaultSt → Option HttpResponse × VaultSt
  | _, some r, st => (some r, st)
  | 0, none, st => (none, st)
  | n + 1, none, st =>
    let (r, st1) := vaultGet permissionDenied st
    vaultGetRetry permissionDenied n r st1

/-- First GET followed by the retry loop. -/
def vaultFetch (permissionDenied : Bool) (retries : Nat) (st : VaultSt) :
    Option HttpResponse × VaultSt :=
  let (r, st1) := vaultGet permissionDenied st
  vaultGetRetry permissionDenied retries r st1

/-- The status dispatch of `requestSecretAtLocation` (lines 837-864) for
a run whose `permissionDenied` flag is already set: a second 403 logs
the permission denial and returns absent instead of recursing again. -/
def requestSecretAtLocationDenied (cfg : VaultCfg) (location : List Char) (st : VaultSt) :
    Except VaultErr (Bool × Option (List Char) × VaultSt) :=
  match checkAuthentication cfg true st with
  | .error e => .error e
  | .ok st1 =>
  if location = [] then .ok (false, none, st1)
  else
    let (r, st2) := vaultFetch true cfg.retries st1
    match r with
    | some res =>
      if res.status = 200 then .ok (true, some res.body, st2)
      else if res.status = 403 then
        .ok (false, none, { st2 with events := st2.events ++ [VaultEvent.logPermissionDenied] })
      else if res.status = 404 then
        .ok (false, none, { st2 with events := st2.events ++ [VaultEvent.logNotFound] })
      else .ok (false, none, { st2 with events := st2.events ++ [VaultEvent.logOtherError] })
    | none => .ok (false, none, { st2 with events := st2.events ++ [VaultEvent.logCommError] })

/-- Embedding of `CVault::requestSecretAtLocation` (lines 812-865)
entered with `permissionDenied = false`.  The C++ function recurses at
most once — only on a 403 and only with the flag set — so the recursion
is unrolled into `requestSecretAtLocationDenied`. -/
def requestSecretAtLocation (cfg : VaultCfg) (location : List Char) (st : VaultSt) :
    Except VaultErr (Bool × Option (List Char) × VaultSt) :=
  match checkAuthentication cfg false st with
  | .error e => .error e
  | .ok st1 =>
  if location = [] then .ok (false, none, st1)
  else
    let (r, st2) := vaultFetch false cfg.retries st1
    match r with
    | some res =>
      if res.status = 200 then .ok (true, some res.body, st2)
      else if res.status = 403 then
        requestSecretAtLocationDenied cfg location st2
      else if res.status = 404 then
        .ok (false, none, { st2 with events := st2.events ++ [VaultEvent.logNotFound] })
      else .ok (false, none, { st2 with events := st2.events ++ [VaultEvent.logOtherError] })
    | none => .ok (false, none, { st2 with events := st2.events ++ [VaultEvent.logCommError] })

/-! ## Helper lemmas -/

deriving instance DecidableEq for Except

theorem validChr_first_last (c : Char) (k : Bool)
    (h : isValidSecretOrKeyNameChr c true k = true) : c.isAlphanum = true := by
  by_cases hN : c = '\x00'
  · simp [isValidSecretOrKeyNameChr, hN] at h
  · by_cases hA : c.isAlphanum
    · exact hA
    · simp [isValidSecretOrKeyNameChr, hN, hA] at h

theorem validTail_last (isKey : Bool) :
    ∀ l : List Char, validSecretNameTail isKey l = true → l ≠ [] →
      ∃ cl, l.getLast? = some cl ∧ cl.isAlphanum = true := by
  intro l
  induction l with
  | nil => intro _ h; exact absurd rfl h
  | cons c rest ih =>
    intro h _
    rw [validSecretNameTail, Bool.and_eq_true] at h
    cases rest with
    | nil =>
      refine ⟨c, rfl, validChr_first_last c isKey ?_⟩
      simpa using h.1
    | cons d ds =>
      obtain ⟨cl, hl, ha⟩ := ih h.2 (by simp)
      exact ⟨cl, by rw [List.getLast?_cons_cons]; exact hl, ha⟩

/-! ## Claim theorems -/

/-- C3: `noteFailedUpdate(entry, now)` sets only `checkedTimestamp` (to
`now`); contents, content timestamp, accessed timestamp and content hash
are unchanged.  In particular, after a successful `updateContents` a
failed refresh leaves the loaded contents in place, and on the
`getSecretEntry` failure path the entry's contents are exactly what the
cache lookup produced. -/
theorem C3_noteFailedUpdate_frame :
    ∀ (e : SecretCacheEntry) (now : Nat),
      ((e.noteFailedUpdate now).contents = e.contents
        ∧ (e.noteFailedUpdate now).contentTimestamp = e.contentTimestamp
        ∧ (e.noteFailedUpdate now).accessedTimestamp = e.accessedTimestamp
        ∧ (e.noteFailedUpdate now).contentHash = e.contentHash
        ∧ (e.noteFailedUpdate now).checkedTimestamp = now)
      ∧ (∀ (t : PTree) (t0 : Nat),
          ((e.updateContents t t0).noteFailedUpdate now).contents = some t)
      ∧ (∀ (st : SecretsState) (c n : List Char) (ov v : Option (List Char)),
          (resolveSecretForRefresh st.env c n ov v).1 = none →
            ((getSecretEntry st c n ov v).1).contents
              = ((SecretCache.resolveSecret st.cache st.ttl
                  (buildSecretKey c n ov v) st.now).1).contents) := by
  intro e now
  refine ⟨⟨rfl, rfl, rfl, rfl, rfl⟩, fun t t0 => rfl, ?_⟩
  intro st c n ov v h
  unfold getSecretEntry
  by_cases hr : (SecretCache.resolveSecret st.cache st.ttl
      (buildSecretKey c n ov v) st.now).1.needsRefresh st.ttl st.now
  · simp [hr, h, SecretCacheEntry.noteFailedUpdate]
  · simp [hr]

/-- C6 counterexample: the claim says category validation rejects
`"a_b"`, but `validateCategoryName` passes `isKeyName = true` to
`isValidSecretOrKeyName`, so the category validator accepts it. -/
theorem C6_counterexample_category_accepts_underscore :
    validateCategoryName (str "a_b") = Except.ok () := by decide

/-- C6 (amended): category, secret and key validation all accept `"abc"`
and `"a.b-c"` and all reject `""`, `".x"`, `"x."`, `"x/y"`, `"../x"` and
`"a b"`; `"a_b"` is accepted by key-name *and category* validation and
rejected only by secret-name validation; the first and last character of
any accepted name is alphanumeric. -/
theorem C6_name_validation_amended :
    (∀ s ∈ [str "abc", str "a.b-c"],
        validateCategoryName s = .ok () ∧ validateSecretName s = .ok ()
          ∧ validateKeyName s = .ok ())
    ∧ (∀ s ∈ [str "", str ".x", str "x.", str "x/y", str "../x", str "a b"],
        validateCategoryName s = .error .invalidCategory
          ∧ validateSecretName s = .error .invalidSecretName
          ∧ validateKeyName s = .error .invalidKeyName)
    ∧ (validateKeyName (str "a_b") = .ok ()
        ∧ validateCategoryName (str "a_b") = .ok ()
        ∧ validateSecretName (str "a_b") = .error .invalidSecretName)
    ∧ (∀ (name : List Char) (isKey : Bool), isValidSecretOrKeyName name isKey = true →
        ∃ cf cl, name.head? = some cf ∧ name.getLast? = some cl
          ∧ cf.isAlphanum = true ∧ cl.isAlphanum = true) := by
  refine ⟨by decide, by decide, by decide, ?_⟩
  intro name isKey h
  cases name with
  | nil => simp [isValidSecretOrKeyName] at h
  | cons c rest =>
    rw [isValidSecretOrKeyName, Bool.and_eq_true] at h
    cases rest with
    | nil =>
      exact ⟨c, c, rfl, rfl, validChr_first_last c isKey h.1,
        validChr_first_last c isKey h.1⟩
    | cons d ds =>
      obtain ⟨cl, hl, ha⟩ := validTail_last isKey (d :: ds) h.2 (by simp)
      exact ⟨c, cl, rfl, by rw [List.getLast?_cons_cons]; exact hl,
        validChr_first_last c isKey h.1, ha⟩

/-- C7 counterexample: with TTL = 0 a freshly constructed entry does
*not* satisfy `needsRefresh(now)` — the constructor sets the checked
timestamp to `now - 2*0 = now`, and the elapsed time 0 is not `> 0`. -/
theorem C7_counterexample_zero_ttl :
    (mkSecretCacheEntry 5 0).needsRefresh 0 5 = false := by decide

/-- C7 (amended): `needsRefresh(now)` holds exactly when the unsigned
32-bit difference `now - checkedTimestamp` exceeds the TTL, and a
freshly constructed entry satisfies `needsRefresh(now)` immediately
*provided* the TTL is nonzero and `2*TTL` does not overflow 32 bits
(`0 < ttl` and `2*ttl < 2^32`; the original claim asserted this for
every configured TTL, which fails at `ttl = 0` and `ttl ≥ 2^31`). -/
theorem C7_needsRefresh_amended :
    ∀ (e : SecretCacheEntry) (ttl now : Nat),
      (e.needsRefresh ttl now = true ↔ ttl < usub now e.checkedTimestamp)
      ∧ (0 < ttl → 2 * ttl < UINT32_MOD →
          (mkSecretCacheEntry now ttl).needsRefresh ttl now = true) := by
  intro e ttl now
  constructor
  · simp [SecretCacheEntry.needsRefresh]
  · intro h1 h2
    rw [UINT32_MOD] at h2
    simp only [SecretCacheEntry.needsRefresh, mkSecretCacheEntry, usub, UINT32_MOD,
      decide_eq_true_eq]
    omega

/-- C10: the cache key appends `"@"` whenever the vault-id argument is a
non-null pointer, even when it points at the empty string; a null
vault-id and an empty vault-id therefore produce the two distinct keys
`category/name` and `category/name@` and two distinct cache entries,
while both follow exactly the same local-first-then-category resolution
path. -/
theorem C10_cache_key_null_vs_empty_vaultid :
    ∀ (c n : List Char) (env : ResolveEnv) (v : Option (List Char)) (now ttl : Nat),
      buildSecretKey c n none none = c ++ str "/" ++ n
      ∧ buildSecretKey c n (some []) none = c ++ str "/" ++ n ++ str "@"
      ∧ buildSecretKey c n none none ≠ buildSecretKey c n (some []) none
      ∧ resolveSecretForRefresh env c n none v = resolveSecretForRefresh env c n (some []) v
      ∧ (SecretCache.resolveSecret
            ((SecretCache.resolveSecret [] ttl (buildSecretKey c n none none) now).2)
            ttl (buildSecretKey c n (some []) none) now).2.length = 2 := by
  intro c n env v now ttl
  have hne : buildSecretKey c n none none ≠ buildSecretKey c n (some []) none := by
    intro h
    have hlen := congrArg List.length h
    simp [buildSecretKey, str] at hlen
  refine ⟨by simp [buildSecretKey, str], by simp [buildSecretKey, str], hne, rfl, ?_⟩
  simp [SecretCache.resolveSecret, cacheLookup, cacheSet, hne, Ne.symm hne]

/-- A resolution environment whose sources all come up empty, used for
concrete runs of the resolver. -/
def envConst : ResolveEnv where
  localSecret := fun _ _ => none
  registryByVault := fun _ _ _ _ => none
  registryByCategory := fun _ _ _ => none
  parseJson := fun _ => none

/-- C2 counterexample: the vault-id comparison is `strieq`, i.e.
case-insensitive, so the non-empty vault id `"K8S"` — which is *not* the
literal `"k8s"` — consults the local source, not the registry lookup the
claim prescribes for every other non-empty string. -/
theorem C2_counterexample_case_insensitive_k8s :
    (resolveSecretForRefresh envConst (str "c") (str "n") (some (str "K8S")) none).2
      ≠ [Consult.registryByVault (str "c") (str "K8S") (str "n")] := by decide

/-- C2 (amended): on refresh, a vault id equal to `"k8s"`
*case-insensitively* consults only the local source; any other non-empty
vault id consults only the registry lookup by category and that vault id
(no fallback); an empty or null vault id consults the local source first
and fans out to the registry by category only when the local source is
absent. -/
theorem C2_resolution_policy_amended :
    ∀ (env : ResolveEnv) (c n vid : List Char) (v : Option (List Char)),
      (strieq vid (str "k8s") = true →
        resolveSecretForRefresh env c n (some vid) v
          = (env.localSecret c n, [Consult.localFs c n]))
      ∧ (vid ≠ [] → strieq vid (str "k8s") = false →
        (resolveSecretForRefresh env c n (some vid) v).2
          = [Consult.registryByVault c vid n])
      ∧ (∀ ov : Option (List Char), ov = none ∨ ov = some [] →
          (∀ t, env.localSecret c n = some t →
              resolveSecretForRefresh env c n ov v = (some t, [Consult.localFs c n]))
          ∧ (env.localSecret c n = none →
              (resolveSecretForRefresh env c n ov v).2
                = [Consult.localFs c n, Consult.registryByCategory c n]))
      ∧ (∀ (st : SecretsState) (ov : Option (List Char)),
          ((SecretCache.resolveSecret st.cache st.ttl (buildSecretKey c n ov v)
              st.now).1).needsRefresh st.ttl st.now = true →
          (getSecretEntry st c n ov v).2.consulted
            = st.consulted ++ (resolveSecretForRefresh st.env c n ov v).2) := by
  intro env c n vid v
  refine ⟨?_, ?_, ?_, ?_⟩
  · intro hk
    cases vid with
    | nil => simp [strieq, str] at hk
    | cons c0 cs => simp [resolveSecretForRefresh, hk]
  · intro hne hk
    cases vid with
    | nil => exact absurd rfl hne
    | cons c0 cs =>
      rcases hreg : env.registryByVault c (c0 :: cs) n v with _ | ⟨kind, json⟩ <;>
        simp [resolveSecretForRefresh, hk, resolveVaultSecret, hreg]
  · intro ov hov
    have hloc : ∀ t, env.localSecret c n = some t →
        resolveSecretForRefresh env c n ov v = (some t, [Consult.localFs c n]) := by
      intro t ht
      rcases hov with h | h <;> subst h <;> simp [resolveSecretForRefresh, ht]
    refine ⟨hloc, ?_⟩
    intro ht
    rcases hov with h | h <;> subst h <;>
      rcases hreg : env.registryByCategory c n v with _ | ⟨kind, json⟩ <;>
        simp [resolveSecretForRefresh, ht, resolveVaultSecret, hreg]
  · intro st ov hr
    unfold getSecretEntry
    rcases ht : resolveSecretForRefresh st.env c n ov v with ⟨r, tr⟩
    cases r <;> simp [hr, ht]

/-- C4: a `kv_v1` vault payload is unwrapped from the JSON path `data`,
a `kv_v2` payload from `data/data`; the kind for an unset or
unrecognized `@kind` string is `kv_v2`; an empty body, an unparseable
body, or a parsed body lacking the respective path all yield absent. -/
theorem C4_vault_payload_decoding :
    ∀ (parse : List Char → Option PTree) (body : List Char) (t : PTree)
      (kind : CVaultKind) (s : List Char),
      (getSecretType none = CVaultKind.kv_v2
        ∧ getSecretType (some []) = CVaultKind.kv_v2
        ∧ getSecretType (some (str "kv_v1")) = CVaultKind.kv_v1)
      ∧ (s ≠ str "kv_v1" → getSecretType (some s) = CVaultKind.kv_v2)
      ∧ createPTreeFromVaultSecret parse [] kind = none
      ∧ (parse body = none → createPTreeFromVaultSecret parse body kind = none)
      ∧ (body ≠ [] → parse body = some t →
          createPTreeFromVaultSecret parse body CVaultKind.kv_v1
            = t.getPropTree (str "data")
          ∧ createPTreeFromVaultSecret parse body CVaultKind.kv_v2
            = t.getPropTree (str "data/data")) := by
  intro parse body t kind s
  refine ⟨⟨rfl, rfl, by decide⟩, ?_, by simp [createPTreeFromVaultSecret], ?_, ?_⟩
  · intro hs
    cases s with
    | nil => rfl
    | cons c0 cs => simp [getSecretType, hs]
  · intro hp
    by_cases hb : body = []
    · simp [hb, createPTreeFromVaultSecret]
    · simp [createPTreeFromVaultSecret, hb, hp]
  · intro hb hp
    constructor <;> simp [createPTreeFromVaultSecret, hb, hp]

/-- C1: for valid category, secret and key names, `getSecretValue` with
`required = true` throws when the secret cannot be resolved
(`secretNotFound`) or when the resolved secret lacks the key
(`missingKey`); with `required = false` it returns without throwing and
the result is absent in those cases; in the found case the result holds
the key's value (for either `required`). -/
theorem C1_getSecretValue_spec :
    ∀ (st : SecretsState) (c n k : List Char),
      isValidSecretOrKeyName c true = true →
      isValidSecretOrKeyName n false = true →
      isValidSecretOrKeyName k true = true →
      (∀ st1, getSecretTree st c n none none = (none, st1) →
          getSecretValue st c n k true = .error .secretNotFound
          ∧ getSecretValue st c n k false = .ok (true, none, st1))
      ∧ (∀ t st1, getSecretTree st c n none none = (some t, st1) →
          (t.getProp k = none →
            getSecretValue st c n k true = .error .missingKey
            ∧ getSecretValue st c n k false = .ok (true, none, st1))
          ∧ (∀ (w : List Char) (req : Bool), t.getProp k = some w →
            getSecretValue st c n k req = .ok (true, some w, st1))) := by
  intro st c n k hc hn hk
  constructor
  · intro st1 h
    constructor <;>
      simp [getSecretValue, getSecret, validateCategoryName, validateSecretName,
        validateKeyName, getSecretKeyValue, hc, hn, hk, h]
  · intro t st1 h
    constructor
    · intro hmiss
      constructor <;>
        simp [getSecretValue, getSecret, validateCategoryName, validateSecretName,
          validateKeyName, getSecretKeyValue, hc, hn, hk, h, hmiss]
    · intro w req hfound
      simp [getSecretValue, getSecret, validateCategoryName, validateSecretName,
        validateKeyName, getSecretKeyValue, hc, hn, hk, h, hfound]

/-- A one-secret local filesystem: `appA/db` holds `password = hunter2`. -/
def sampleSecretTree : PTree :=
  .node none (.cons (str "password") (.node (some (str "hunter2")) .nil) .nil)

/-- Environment whose local source always yields `sampleSecretTree`. -/
def envLocal : ResolveEnv where
  localSecret := fun _ _ => some sampleSecretTree
  registryByVault := fun _ _ _ _ => none
  registryByCategory := fun _ _ _ => none
  parseJson := fun _ => none

/-- A concrete initial state: empty cache, clock at 5000 ms, TTL 1000 ms. -/
def st0 : SecretsState where
  env := envLocal
  cache := []
  now := 5000
  ttl := 1000
  consulted := []

theorem C1_getSecretValue_witness :
    isValidSecretOrKeyName (str "appA") true = true
    ∧ getSecretValue st0 (str "appA") (str "db") (str "password") true
        = .ok (true, some (str "hunter2"),
            (getSecretTree st0 (str "appA") (str "db") none none).2) :=
  ⟨by decide,
    ((C1_getSecretValue_spec st0 (str "appA") (str "db") (str "password")
          (by decide) (by decide) (by decide)).2 sampleSecretTree
        (getSecretTree st0 (str "appA") (str "db") none none).2 rfl).2
      (str "hunter2") true rfl⟩

/-- C5: a vault with a (re)login-capable auth mode (k8s, appRole or
client cert) holding a live token, whose GET returns 403 twice: the
client forces exactly one re-login, retries the fetch exactly once with
the `permissionDenied` flag set, and on the second 403 logs the
permission denial and returns absent (`false`) without throwing.  The
event trace is exactly: GET (flag clear), forced login, GET (flag set),
permission-denied log. -/
theorem C5_vault_403_relogin_once :
    ∀ (cfg : VaultCfg) (loc t0 t1 b1 b2 : List Char)
      (rest : List (Option HttpResponse)),
      cfg.authType = .k8s ∨ cfg.authType = .appRole ∨ cfg.authType = .clientcert →
      t0 ≠ [] → t1 ≠ [] → loc ≠ [] →
      requestSecretAtLocation cfg loc
        { clientToken := t0, tokenExpired := false,
          responses := some ⟨403, b1⟩ :: some ⟨403, b2⟩ :: rest,
          loginOutcome := some t1, events := [] }
        = .ok (false, none,
          { clientToken := t1, tokenExpired := false, responses := rest,
            loginOutcome := some t1,
            events := [VaultEvent.httpGet false, VaultEvent.loginAttempt true,
              VaultEvent.httpGet true, VaultEvent.logPermissionDenied] }) := by
  intro cfg loc t0 t1 b1 b2 rest hauth ht0 ht1 hloc
  rcases hauth with h | h | h <;>
    simp [requestSecretAtLocation, requestSecretAtLocationDenied, checkAuthentication,
      vaultLogin, vaultFetch, vaultGet, vaultGetRetry, h, ht0, ht1, hloc]

theorem C5_vault_403_relogin_once_witness :
    requestSecretAtLocation ⟨.k8s, 3⟩ (str "/v1/secret/data/x")
      { clientToken := str "tok", tokenExpired := false,
        responses := [some ⟨403, str "denied"⟩, some ⟨403, str "denied"⟩],
        loginOutcome := some (str "tok2"), events := [] }
      = .ok (false, none,
        { clientToken := str "tok2", tokenExpired := false, responses := [],
          loginOutcome := some (str "tok2"),
          events := [VaultEvent.httpGet false, VaultEvent.loginAttempt true,
            VaultEvent.httpGet true, VaultEvent.logPermissionDenied] }) :=
  C5_vault_403_relogin_once ⟨.k8s, 3⟩ (str "/v1/secret/data/x") (str "tok")
    (str "tok2") (str "denied") (str "denied") [] (Or.inl rfl)
    (by decide) (by decide) (by decide)

/-! ## URL parsing lemmas for C8/C9 -/

theorem splitFirst_of_not_mem (c : Char) :
    ∀ l : List Char, c ∉ l → splitFirst c l = none := by
  intro l
  induction l with
  | nil => intro _; rfl
  | cons x xs ih =>
    intro h
    simp only [List.mem_cons, not_or] at h
    have hx : ¬ x = c := fun hh => h.1 hh.symm
    simp [splitFirst, hx, ih h.2]

theorem splitFirst_append_of_not_mem (c : Char) (r : List Char) :
    ∀ l : List Char, c ∉ l →
      splitFirst c (l ++ r) = (splitFirst c r).map (fun p => (l ++ p.1, p.2)) := by
  intro l
  induction l with
  | nil =>
    intro _
    cases hr : splitFirst c r with
    | none => simp [hr]
    | some p => cases p; simp [hr]
  | cons x xs ih =>
    intro h
    simp only [List.mem_cons, not_or] at h
    have hx : ¬ x = c := fun hh => h.1 hh.symm
    cases hr : splitFirst c r with
    | none => simp [splitFirst, hx, ih h.2, hr]
    | some p => cases p; simp [splitFirst, hx, ih h.2, hr]

theorem splitFirst_append_cons (c : Char) (l r : List Char) (h : c ∉ l) :
    splitFirst c (l ++ c :: r) = some (l, r) := by
  rw [splitFirst_append_of_not_mem c (c :: r) l h]
  simp [splitFirst]

theorem not_mem_append_cons {x c : Char} {a d : List Char} (ha : x ∉ a) (hd : x ∉ d)
    (hxc : x ≠ c) : x ∉ a ++ c :: d := by
  intro hmem
  rcases List.mem_append.mp hmem with h | h
  · exact ha h
  · rcases List.mem_cons.mp h with h | h
    · exact hxc h
    · exact hd h

theorem extractUrlProtocol_http (r : List Char) :
    extractUrlProtocol (str "http://" ++ r) = .ok (str "http://", r) := rfl

theorem extractUrlProtocol_https (r : List Char) :
    extractUrlProtocol (str "https://" ++ r) = .ok (str "https://", r) := rfl

/-- What `splitUrlSections` keeps of a path that is empty or starts with
`/`: a bare `"/"` is dropped. -/
def normPath (path : List Char) : List Char :=
  match path with
  | [] => []
  | _ :: p => if p = [] then [] else path

theorem splitUrlSections_append (a path : List Char) (ha : '/' ∉ a)
    (hp : path = [] ∨ ∃ p', path = '/' :: p') :
    splitUrlSections (a ++ path) = (a, normPath path) := by
  rcases hp with h | ⟨p', h⟩ <;> subst h
  · simp [splitUrlSections, splitFirst_of_not_mem '/' a ha, normPath]
  · rw [splitUrlSections, splitFirst_append_cons '/' a p' ha]
    simp [normPath]

theorem splitUrlAuthority_plain (a : List Char) (hat : '@' ∉ a) (hc : ':' ∉ a) :
    splitUrlAuthority a = ([], [], a, []) := by
  simp [splitUrlAuthority, splitFirst_of_not_mem '@' a hat, splitUrlAddress,
    splitFirst_of_not_mem ':' a hc]

theorem splitUrlAuthority_port (a d : List Char) (hat : '@' ∉ a) (hc : ':' ∉ a)
    (hatd : '@' ∉ d) :
    splitUrlAuthority (a ++ ':' :: d) = ([], [], a, d) := by
  have h1 : '@' ∉ a ++ ':' :: d := not_mem_append_cons hat hatd (by decide)
  simp [splitUrlAuthority, splitFirst_of_not_mem '@' _ h1, splitUrlAddress,
    splitFirst_append_cons ':' a d hc]

theorem isolate_http_noport (host path : List Char) (h1 : ':' ∉ host)
    (h2 : '@' ∉ host) (h3 : '/' ∉ host)
    (hp : path = [] ∨ ∃ p', path = '/' :: p') :
    splitUrlIsolateScheme (str "http://" ++ (host ++ path))
      = .ok ([], [], str "http://", host, [], normPath path) := by
  simp [splitUrlIsolateScheme, extractUrlProtocol_http,
    splitUrlSections_append host path h3 hp, splitUrlAuthority_plain host h2 h1]

theorem isolate_http_port (host d path : List Char) (h1 : ':' ∉ host)
    (h2 : '@' ∉ host) (h3 : '/' ∉ host) (hd1 : '@' ∉ d) (hd2 : '/' ∉ d)
    (hp : path = [] ∨ ∃ p', path = '/' :: p') :
    splitUrlIsolateScheme (str "http://" ++ ((host ++ ':' :: d) ++ path))
      = .ok ([], [], str "http://", host, d, normPath path) := by
  have hslash : '/' ∉ host ++ ':' :: d := not_mem_append_cons h3 hd2 (by decide)
  unfold splitUrlIsolateScheme
  rw [extractUrlProtocol_http]
  simp only [splitUrlSections_append (host ++ ':' :: d) path hslash hp,
    splitUrlAuthority_port host d h2 h1 hd1]

theorem isolate_https_noport (host path : List Char) (h1 : ':' ∉ host)
    (h2 : '@' ∉ host) (h3 : '/' ∉ host)
    (hp : path = [] ∨ ∃ p', path = '/' :: p') :
    splitUrlIsolateScheme (str "https://" ++ (host ++ path))
      = .ok ([], [], str "https://", host, [], normPath path) := by
  simp [splitUrlIsolateScheme, extractUrlProtocol_https,
    splitUrlSections_append host path h3 hp, splitUrlAuthority_plain host h2 h1]

theorem isolate_https_port (host d path : List Char) (h1 : ':' ∉ host)
    (h2 : '@' ∉ host) (h3 : '/' ∉ host) (hd1 : '@' ∉ d) (hd2 : '/' ∉ d)
    (hp : path = [] ∨ ∃ p', path = '/' :: p') :
    splitUrlIsolateScheme (str "https://" ++ ((host ++ ':' :: d) ++ path))
      = .ok ([], [], str "https://", host, d, normPath path) := by
  have hslash : '/' ∉ host ++ ':' :: d := not_mem_append_cons h3 hd2 (by decide)
  unfold splitUrlIsolateScheme
  rw [extractUrlProtocol_https]
  simp only [splitUrlSections_append (host ++ ':' :: d) path hslash hp,
    splitUrlAuthority_port host d h2 h1 hd1]

theorem gen_http_port80 (u h p : List Char) :
    generateDynamicUrlSecretName (some (str "http://")) u h 80 p
      = generateDynamicUrlSecretName (some (str "http://")) u h 0 p := rfl

theorem gen_https_port443 (u h p : List Char) :
    generateDynamicUrlSecretName (some (str "https://")) u h 443 p
      = generateDynamicUrlSecretName (some (str "https://")) u h 0 p := rfl

/-- C8: the URL-level name generator yields the same name for an http
URL with no port and the same URL with explicit port 80, and the same
name for an https URL with no port and the same URL with explicit port
443 — default ports are suppressed before being appended.  The host is
assumed free of `:`/`@`/`/` and the path empty or starting with `/`,
i.e. the port is the URL's port component. -/
theorem C8_default_port_suppression :
    ∀ (user host path : List Char),
      ':' ∉ host → '@' ∉ host → '/' ∉ host →
      path = [] ∨ (∃ p', path = '/' :: p') →
      generateDynamicUrlSecretNameFromUrl (str "http://" ++ (host ++ path)) user
        = generateDynamicUrlSecretNameFromUrl
            (str "http://" ++ ((host ++ ':' :: str "80") ++ path)) user
      ∧ generateDynamicUrlSecretNameFromUrl (str "https://" ++ (host ++ path)) user
        = generateDynamicUrlSecretNameFromUrl
            (str "https://" ++ ((host ++ ':' :: str "443") ++ path)) user := by
  intro user host path h1 h2 h3 hp
  have e0 : (if ([] : List Char) ≠ [] then atoiNat [] 0 else 0) = 0 := by simp
  have e80 : (if str "80" ≠ [] then atoiNat (str "80") 0 else 0) = 80 := by decide
  have e443 : (if str "443" ≠ [] then atoiNat (str "443") 0 else 0) = 443 := by decide
  constructor
  · unfold generateDynamicUrlSecretNameFromUrl
    simp only [isolate_http_noport host path h1 h2 h3 hp,
      isolate_http_port host (str "80") path h1 h2 h3 (by decide) (by decide) hp]
    rw [e0, e80, gen_http_port80]
  · unfold generateDynamicUrlSecretNameFromUrl
    simp only [isolate_https_noport host path h1 h2 h3 hp,
      isolate_https_port host (str "443") path h1 h2 h3 (by decide) (by decide) hp]
    rw [e0, e443, gen_https_port443]

theorem C8_witness_port_suppression :
    ':' ∉ str "example.com"
    ∧ generateDynamicUrlSecretNameFromUrl
        (str "http://" ++ (str "example.com" ++ str "/v1")) (str "alice")
      = generateDynamicUrlSecretNameFromUrl
        (str "http://" ++ ((str "example.com" ++ ':' :: str "80") ++ str "/v1"))
        (str "alice") :=
  ⟨by decide,
    (C8_default_port_suppression (str "alice") (str "example.com") (str "/v1")
      (by decide) (by decide) (by decide) (Or.inr ⟨str "v1", rfl⟩)).1⟩

/-! ## Hash-suffix lemmas for C9 -/

theorem hexVal_hexDigitChar (d : Nat) (h : d < 16) : hexVal (hexDigitChar d) = d := by
  interval_cases d <;> decide

theorem hexRepr_injective (a b : Nat) (h : hexRepr a = hexRepr b) : a = b := by
  have hmap := congrArg (List.map hexVal) h
  rw [hexRepr, hexRepr, List.map_map, List.map_map] at hmap
  have bound : ∀ (n d : Nat), d ∈ (Nat.digits 16 n).reverse → d < 16 := by
    intro n d hd
    exact Nat.digits_lt_base (by norm_num) (List.mem_reverse.mp hd)
  have cancel : ∀ l : List Nat, (∀ d ∈ l, d < 16) →
      l.map (hexVal ∘ hexDigitChar) = l := by
    intro l hl
    calc l.map (hexVal ∘ hexDigitChar)
        = l.map id := List.map_congr_left (fun d hd => hexVal_hexDigitChar d (hl d hd))
      _ = l := List.map_id l
  rw [cancel _ (bound a), cancel _ (bound b)] at hmap
  have hdig : Nat.digits 16 a = Nat.digits 16 b := List.reverse_injective hmap
  calc a = Nat.ofDigits 16 (Nat.digits 16 a) := (Nat.ofDigits_digits 16 a).symm
    _ = Nat.ofDigits 16 (Nat.digits 16 b) := by rw [hdig]
    _ = b := Nat.ofDigits_digits 16 b

theorem hashSuffix_inj {a b : Nat} (h : hashSuffix a = hashSuffix b) : a = b := by
  by_cases ha : a = 0 <;> by_cases hb : b = 0
  · rw [ha, hb]
  · rw [hashSuffix, hashSuffix] at h; simp [ha, hb] at h
  · rw [hashSuffix, hashSuffix] at h; simp [ha, hb] at h
  · rw [hashSuffix, hashSuffix] at h
    simp [ha, hb] at h
    exact hexRepr_injective a b h

theorem urlHash_password_irrelevant (path u p1 p2 : List Char) (h : ':' ∉ u) :
    urlHash path (u ++ ':' :: p1) = urlHash path (u ++ ':' :: p2) := by
  simp [urlHash, splitFirst_append_cons ':' u p1 h, splitFirst_append_cons ':' u p2 h]

/-- C9: with scheme, host, port and path fixed, two `user:password`
pairs with the same username produce identical names (only the part
before the first colon feeds the hash), while changing the username
changes the name whenever the resulting hash differs. -/
theorem C9_username_only_in_hash :
    ∀ (scheme : Option (List Char)) (u p1 p2 u1 u2 host path : List Char) (port : Nat),
      ':' ∉ u →
      (generateDynamicUrlSecretName scheme (u ++ ':' :: p1) host port path
        = generateDynamicUrlSecretName scheme (u ++ ':' :: p2) host port path)
      ∧ (urlHash path u1 ≠ urlHash path u2 →
          generateDynamicUrlSecretName scheme u1 host port path
            ≠ generateDynamicUrlSecretName scheme u2 host port path) := by
  intro scheme u p1 p2 u1 u2 host path port hu
  constructor
  · unfold generateDynamicUrlSecretName
    rw [urlHash_password_irrelevant path u p1 p2 hu]
  · intro hne hEq
    exact hne (hashSuffix_inj (List.append_cancel_left hEq))

theorem C9_witness_password_rotation :
    ':' ∉ str "alice"
    ∧ generateDynamicUrlSecretName (some (str "https://"))
        (str "alice" ++ ':' :: str "pw1") (str "svc.example.com") 0 (str "/v1")
      = generateDynamicUrlSecretName (some (str "https://"))
        (str "alice" ++ ':' :: str "pw2") (str "svc.example.com") 0 (str "/v1")
    ∧ generateDynamicUrlSecretName (some (str "https://")) (str "alice")
        (str "svc.example.com") 0 (str "/v1")
      ≠ generateDynamicUrlSecretName (some (str "https://")) (str "bob")
        (str "svc.example.com") 0 (str "/v1") :=
  ⟨by decide,
    (C9_username_only_in_hash (some (str "https://")) (str "alice") (str "pw1")
      (str "pw2") (str "alice") (str "bob") (str "svc.example.com") (str "/v1") 0
      (by decide)).1,
    (C9_username_only_in_hash (some (str "https://")) (str "alice") (str "pw1")
      (str "pw2") (str "alice") (str "bob") (str "svc.example.com") (str "/v1") 0
      (by decide)).2 (by decide)⟩

end JSecrets
